import Mathlib

/-!
# StreamChat AI — verification of the spec against the code

Shallow embedding of the parts of `streamchat-ai` that the claims are
about:

* `app/middleware/rate_limiter.py` — token-bucket rate limiter
  (`RateLimiter.check_rate_limit`, `RateLimiter.consume_tokens`);
* `app/chat/history.py` — SQLite conversation history
  (`ConversationHistory.get_history`, `add_message`);
* `app/chat/manager.py` — `ChatManager.chat_stream`, `_build_messages`,
  `get_session_info`;
* `app/chat/streaming.py` — `sse_stream`;
* `app/llm/router.py` — `ModelRouter.get_provider`;
* `app/middleware/auth.py` — `verify_api_key`;
* `app/main.py` — the `GET /api/v1/sessions/{id}/history` handler.

Python floats are modelled as rationals (`ℚ`); the wall clock is passed
explicitly as a rational `now` argument, one value per call.  SQLite's
observed semantics are embedded for the one non-obvious query: inside
`get_history`'s limited branch the outer `ORDER BY rowid ASC` sorts by
the constant NULL, because a derived table has no rowid, so it is a
no-op and the inner descending order survives.
-/

namespace StreamChat

/-! ## Rate limiter (`app/middleware/rate_limiter.py`) -/

/-- Embedding of `RateBucket`: current level and the time of the last refill. -/
structure RateBucket where
  tokens : ℚ
  lastRefill : ℚ
  deriving Repr, DecidableEq

/-- Python's `int()` on a float: truncation toward zero. -/
def pyInt (q : ℚ) : ℤ :=
  if 0 ≤ q then ⌊q⌋ else -⌊-q⌋

/-- The continuous refill both methods perform first:
`tokens = min(capacity, tokens + elapsed / window * capacity)`. -/
def refill (capacity window : ℚ) (b : RateBucket) (now : ℚ) : ℚ :=
  min capacity (b.tokens + ((now - b.lastRefill) / window) * capacity)

/-- Result of `check_rate_limit`: the `allowed` flag and the fields of
the info dict that the claims mention. -/
structure CheckResult where
  allowed : Bool
  remaining : ℤ
  retryAfter : Option ℤ
  deriving Repr, DecidableEq

/-- Embedding of `RateLimiter.check_rate_limit` acting on one key's request bucket.
`b₀ = none` models a fresh key: the `defaultdict` creates the bucket
with `tokens = capacity` and `last_refill = now`. -/
def checkRateLimit (capacity window : ℚ) (b₀ : Option RateBucket) (now : ℚ) :
    CheckResult × RateBucket :=
  let b := b₀.getD ⟨capacity, now⟩
  let t := refill capacity window b now
  if t < 1 then
    (⟨false, 0, some (pyInt (window * (1 - t) / capacity))⟩, ⟨t, now⟩)
  else
    (⟨true, pyInt (t - 1), none⟩, ⟨t - 1, now⟩)

/-- Embedding of `RateLimiter.consume_tokens` acting on one key's token bucket. -/
def consumeTokens (capacity window : ℚ) (b₀ : Option RateBucket) (now : ℚ)
    (tokenCount : ℕ) : Bool × RateBucket :=
  let b := b₀.getD ⟨capacity, now⟩
  let t := refill capacity window b now
  if t < (tokenCount : ℚ) then
    (false, ⟨t, now⟩)
  else
    (true, ⟨t - tokenCount, now⟩)

/-- Iterated model: `capacity` consecutive `check_rate_limit` calls on one key, all at
the same instant `now`, starting from a fresh key.  Returns the bucket
after the calls and whether every call was allowed. -/
def runChecks (capacity window now : ℚ) : ℕ → Option RateBucket × Bool
  | 0 => (none, true)
  | n + 1 =>
    let (b, ok) := runChecks capacity window now n
    let (res, b') := checkRateLimit capacity window b now
    (some b', ok && res.allowed)

/-! ## Conversation history (`app/chat/history.py`)

The `messages` table is modelled as a list of rows in insertion order
(`id` ascending = list order); `get_history` filters by session. -/

/-- One row of the `messages` table (the columns `get_history` selects). -/
structure MsgRow where
  sessionId : String
  role : String
  content : String
  model : Option String
  deriving Repr, DecidableEq

/-- Embedding of `ConversationHistory.add_message`: appends one row (the session
upsert does not affect the messages table). -/
def addMessage (db : List MsgRow) (sessionId role content : String)
    (model : Option String) : List MsgRow :=
  db ++ [⟨sessionId, role, content, model⟩]

/-- Embedding of `ConversationHistory.get_history`.  Without a limit (or with the
falsy limit `0`): `ORDER BY id ASC`, i.e. insertion order.  With a
positive limit: the inner query is `ORDER BY id DESC LIMIT n`, and the
outer `ORDER BY rowid ASC` sorts by NULL (a derived table has no
rowid), leaving the descending order in place — observed SQLite
behavior, embedded as such. -/
def getHistory (db : List MsgRow) (sessionId : String) (limit : Option ℕ) :
    List MsgRow :=
  let msgs := db.filter (fun m => m.sessionId = sessionId)
  match limit with
  | none => msgs
  | some 0 => msgs
  | some n => msgs.reverse.take n

/-! ## Chat manager (`app/chat/manager.py`) -/

/-- A chat message as sent to the provider. -/
structure ChatMessage where
  role : String
  content : String
  deriving Repr, DecidableEq

/-- The fixed `ChatManager.SYSTEM_PROMPT`. -/
def SYSTEM_PROMPT : String :=
  "You are StreamChat AI, a helpful and knowledgeable assistant. " ++
  "Provide clear, accurate, and concise responses. " ++
  "Be conversational and engaging."

/-- Embedding of `ChatManager._build_messages`: the system prompt followed by
`get_history(session_id, limit=20)` filtered to the roles `user` and
`assistant`. -/
def buildMessages (db : List MsgRow) (sessionId : String) : List ChatMessage :=
  ⟨"system", SYSTEM_PROMPT⟩ ::
    ((getHistory db sessionId (some 20)).filter
        (fun m => m.role = "user" || m.role = "assistant")).map
      (fun m => ⟨m.role, m.content⟩)

/-- The outcome of the provider's token stream: the tokens it yielded,
then either normal exhaustion (`none`) or an exception with a message
(`some e`). -/
def StreamOutcome := List String × Option String

/-- Embedding of `ChatManager.chat_stream`: persist the user message, build the
context, forward each provider token, and persist the accumulated text
as the assistant message only when the stream ends normally — an
exception from the provider propagates out of the `async for`, so the
final `add_message` is never reached.  Returns the yielded tokens and
the history after the turn. -/
def chatStream (db : List MsgRow) (sessionId message : String)
    (model : Option String) (providerModelName : String)
    (outcome : StreamOutcome) : List String × List MsgRow :=
  let db₁ := addMessage db sessionId "user" message model
  match outcome.2 with
  | some _ => (outcome.1, db₁)
  | none =>
    (outcome.1,
      addMessage db₁ sessionId "assistant" (String.join outcome.1)
        (some providerModelName))

/-- Result type of `ChatManager.get_session_info`. -/
structure SessionInfo where
  sessionId : String
  messageCount : ℕ
  history : List MsgRow
  deriving Repr, DecidableEq

def getSessionInfo (db : List MsgRow) (sessionId : String) : SessionInfo :=
  let h := getHistory db sessionId none
  ⟨sessionId, h.length, h⟩

/-- The `GET /api/v1/sessions/{session_id}/history` handler in
`app/main.py`: it takes a `limit` query parameter (default 50) and
returns `get_session_info(session_id)` without using it. -/
def getSessionHistoryEndpoint (db : List MsgRow) (sessionId : String)
    (limit : ℕ) : SessionInfo :=
  getSessionInfo db sessionId

/-! ## SSE relay (`app/chat/streaming.py`) -/

/-- An SSE frame emitted by `sse_stream` (the fields of the JSON
payload of each `data:` frame). -/
inductive SseEvent where
  | token (tok sessionId : String)
  | done (model sessionId : String) (totalLength : ℕ)
  | error (message : String)
  deriving Repr, DecidableEq

/-- The loop of `sse_stream`, with the running `full_response`
accumulator: one `token` frame per upstream token; on normal
exhaustion one `done` frame carrying `len(full_response)`; if the
upstream raises after its tokens, one `error` frame carrying the
exception's message, and nothing is re-raised. -/
def sseRun (sessionId model : String) :
    List String → String → Option String → List SseEvent
  | [], acc, none => [.done model sessionId acc.length]
  | [], _, some e => [.error e]
  | t :: ts, acc, err => .token t sessionId :: sseRun sessionId model ts (acc ++ t) err

/-- Embedding of `sse_stream` on an upstream outcome (tokens, then normal end or an
exception). -/
def sseStream (outcome : StreamOutcome) (sessionId model : String) :
    List SseEvent :=
  sseRun sessionId model outcome.1 "" outcome.2

/-! ## Model router (`app/llm/router.py`) -/

/-- A registered provider: its backend name and its `model_name`
property (the constructor returns the `model` argument it was built
with; the registered names are non-empty literals, so the
`model or settings.x_model` fallback in the clients never fires). -/
structure Provider where
  backend : String
  modelName : String
  deriving Repr, DecidableEq

def openaiModels : List String :=
  ["gpt-4o", "gpt-4o-mini", "gpt-4-turbo", "gpt-3.5-turbo"]

def geminiModels : List String :=
  ["gemini-1.5-flash", "gemini-1.5-pro", "gemini-2.0-flash"]

/-- Embedding of the `ModelRouter` state: the `_providers` dict (as an association list
in registration order) and the configured default model. -/
structure Router where
  providers : List (String × Provider)
  defaultModel : String
  deriving Repr, DecidableEq

/-- Embedding of `ModelRouter.__init__`: register a provider per model name for each
backend whose API key is present. -/
def mkRouter (openaiKeyPresent geminiKeyPresent : Bool)
    (defaultModel : String) : Router :=
  ⟨(if openaiKeyPresent then
      openaiModels.map (fun m => (m, ⟨"openai", m⟩)) else []) ++
   (if geminiKeyPresent then
      geminiModels.map (fun m => (m, ⟨"gemini", m⟩)) else []),
   defaultModel⟩

/-- The registered model names (`list(self._providers.keys())`). -/
def Router.names (r : Router) : List String := r.providers.map Prod.fst

/-- The resolution step `model = model or self.default_model`:
Python's `or` replaces both `None` and the falsy empty string by the
configured default. -/
def resolveModel (r : Router) (model : Option String) : String :=
  match model with
  | none => r.defaultModel
  | some m => if m = "" then r.defaultModel else m

/-- Embedding of `ModelRouter.get_provider`.  On an unknown resolved name it raises
a `ValueError` listing the registered models; the error value here is
that list. -/
def getProvider (r : Router) (model : Option String) :
    Except (List String) Provider :=
  match r.providers.lookup (resolveModel r model) with
  | some p => .ok p
  | none => .error r.names

/-- The `model_name` of a successful `get_provider` result. -/
def okModelName (e : Except (List String) Provider) : Option String :=
  match e with
  | .ok p => some p.modelName
  | .error _ => none

/-- The enumerated model list of a failed `get_provider` result. -/
def errModels (e : Except (List String) Provider) : Option (List String) :=
  match e with
  | .ok _ => none
  | .error l => some l

/-! ## Authentication (`app/middleware/auth.py`, `app/config.py`) -/

/-- Python `str.strip()` whitespace (the ASCII part; the keys and
headers involved are ASCII). -/
def isPySpace (c : Char) : Bool :=
  c = ' ' || c = '\t' || c = '\n' || c = '\r' || c = '\x0b' || c = '\x0c'

/-- Python `s.strip()` on a string as a character list. -/
def pyStrip (s : List Char) : List Char :=
  ((s.dropWhile isPySpace).reverse.dropWhile isPySpace).reverse

/-- Python `s.split(",")`. -/
def splitOnComma : List Char → List (List Char)
  | [] => [[]]
  | c :: rest =>
    let r := splitOnComma rest
    if c = ',' then [] :: r
    else (c :: r.headI) :: r.tail

/-- Embedding of `Settings.valid_api_keys`: strip each comma-separated piece and keep
the non-empty ones. -/
def validApiKeys (cfg : List Char) : List (List Char) :=
  ((splitOnComma cfg).map pyStrip).filter (fun k => k ≠ [])

/-- Outcomes of `verify_api_key`: 401, 403, or the validated key. -/
inductive AuthOutcome where
  | missing401
  | invalid403
  | ok (apiKey : List Char)
  deriving Repr, DecidableEq

def bearerChars : List Char := "Bearer ".toList

/-- Embedding of `verify_api_key` on the raw `Authorization` header value: strip the
`Bearer ` prefix when present, otherwise take the whole header; strip
whitespace; 401 when empty, 403 when not a configured key. -/
def verifyApiKey (auth : List Char) (validKeys : List (List Char)) :
    AuthOutcome :=
  let apiKey :=
    if bearerChars.isPrefixOf auth then pyStrip (auth.drop 7)
    else pyStrip auth
  if apiKey = [] then .missing401
  else if apiKey ∈ validKeys then .ok apiKey
  else .invalid403

/-! ## Full limiter state and traces (for the bucket-bounds invariant) -/

/-- The two bucket families of a `RateLimiter`: `_request_buckets` and
`_token_buckets`, each a `defaultdict` keyed by API key (`none` models
a key whose bucket was never created). -/
structure LimiterState where
  reqBuckets : String → Option RateBucket
  tokBuckets : String → Option RateBucket

/-- The empty limiter of `RateLimiter.__init__`. -/
def initLimiter : LimiterState := ⟨fun _ => none, fun _ => none⟩

/-- One API call into the limiter. -/
inductive LimiterOp where
  | check (key : String)
  | consume (key : String) (n : ℕ)

/-- One step of the limiter: `check_rate_limit` touches only the
request bucket of its key, `consume_tokens` only the token bucket. -/
def limiterStep (maxRequests maxTokens window : ℚ) (s : LimiterState)
    (now : ℚ) : LimiterOp → LimiterState
  | .check k =>
    ⟨fun k' => if k' = k then
        some (checkRateLimit maxRequests window (s.reqBuckets k) now).2
      else s.reqBuckets k', s.tokBuckets⟩
  | .consume k n =>
    ⟨s.reqBuckets, fun k' => if k' = k then
        some (consumeTokens maxTokens window (s.tokBuckets k) now n).2
      else s.tokBuckets k'⟩

/-- Run a timed trace of limiter calls from a state. -/
def limiterRun (maxRequests maxTokens window : ℚ) :
    LimiterState → List (ℚ × LimiterOp) → LimiterState
  | s, [] => s
  | s, (now, op) :: rest =>
    limiterRun maxRequests maxTokens window
      (limiterStep maxRequests maxTokens window s now op) rest

/-- A bucket (when it exists) sits between 0 and its capacity. -/
def bucketOk (capacity : ℚ) : Option RateBucket → Prop
  | none => True
  | some b => 0 ≤ b.tokens ∧ b.tokens ≤ capacity

instance (capacity : ℚ) (b : Option RateBucket) :
    Decidable (bucketOk capacity b) := by
  cases b <;> simp [bucketOk] <;> infer_instance

/-! ## Theorems -/

/-- Claim C2: for every key (fresh or existing bucket), every
nonnegative token count `n` and every bucket state, `consume_tokens`
returns `false` exactly when `n` exceeds the refilled balance, in which
case the balance is left at the refilled value (nothing is consumed);
otherwise it returns `true` and the balance drops by exactly `n`.
Rejection is atomic: no partial consumption. -/
theorem consumeTokens_atomic (capacity window : ℚ) (b₀ : Option RateBucket)
    (now : ℚ) (n : ℕ) :
    ((consumeTokens capacity window b₀ now n).1 = false ↔
      refill capacity window (b₀.getD ⟨capacity, now⟩) now < (n : ℚ)) ∧
    ((consumeTokens capacity window b₀ now n).1 = false →
      (consumeTokens capacity window b₀ now n).2.tokens =
        refill capacity window (b₀.getD ⟨capacity, now⟩) now) ∧
    ((consumeTokens capacity window b₀ now n).1 = true →
      (consumeTokens capacity window b₀ now n).2.tokens =
        refill capacity window (b₀.getD ⟨capacity, now⟩) now - (n : ℚ)) := by
  simp only [consumeTokens]
  split <;> simp_all

/-- Concrete instance of `consumeTokens_atomic`: a fresh bucket of
capacity 100 rejects a request for 101 tokens and accepts one for
100. -/
theorem consumeTokens_atomic_witness :
    ((consumeTokens 100 60 none 0 101).1 = false ↔
      refill 100 60 ((none : Option RateBucket).getD ⟨100, 0⟩) 0 < (101 : ℚ)) ∧
    ((consumeTokens 100 60 none 0 101).1 = false →
      (consumeTokens 100 60 none 0 101).2.tokens =
        refill 100 60 ((none : Option RateBucket).getD ⟨100, 0⟩) 0) ∧
    ((consumeTokens 100 60 none 0 101).1 = true →
      (consumeTokens 100 60 none 0 101).2.tokens =
        refill 100 60 ((none : Option RateBucket).getD ⟨100, 0⟩) 0 - (101 : ℚ)) :=
  consumeTokens_atomic 100 60 none 0 101

/-- Claim C3: when the provider's stream raises after yielding some
tokens, `chat_stream` persists no assistant message: the history after
the failed turn is exactly the prior history plus the user message,
and in particular contains no new assistant row. -/
theorem chatStream_error_not_persisted (db : List MsgRow)
    (sessionId message : String) (model : Option String)
    (providerModelName : String) (toks : List String) (e : String) :
    (chatStream db sessionId message model providerModelName (toks, some e)).2 =
      addMessage db sessionId "user" message model ∧
    ((chatStream db sessionId message model providerModelName
        (toks, some e)).2.filter (fun m => m.role = "assistant")) =
      db.filter (fun m => m.role = "assistant") := by
  refine ⟨rfl, ?_⟩
  simp [chatStream, addMessage]

/-- Shape of the `sse_stream` loop for any accumulator value. -/
lemma sseRun_eq (sessionId model : String) (toks : List String) (acc : String)
    (err : Option String) :
    sseRun sessionId model toks acc err =
      toks.map (fun t => SseEvent.token t sessionId) ++
        (match err with
         | none =>
            [SseEvent.done model sessionId
              (acc.length + (toks.map String.length).sum)]
         | some e => [SseEvent.error e]) := by
  induction toks generalizing acc with
  | nil => cases err <;> simp [sseRun]
  | cons t ts ih =>
    cases err <;> simp [sseRun, ih, String.length_append, Nat.add_assoc]

/-- Claim C4: `sse_stream` emits one `token` frame per upstream token,
in order, each carrying the token and the session id; then exactly one
terminal frame — a `done` frame whose `total_length` is the total
character count of the tokens on normal exhaustion, or an `error`
frame carrying the exception's message when the upstream raises —
and nothing after it (the terminal frame is last, and nothing is
re-raised). -/
theorem sseStream_events (toks : List String) (sessionId model : String)
    (err : Option String) :
    sseStream (toks, err) sessionId model =
      toks.map (fun t => SseEvent.token t sessionId) ++
        (match err with
         | none => [SseEvent.done model sessionId (toks.map String.length).sum]
         | some e => [SseEvent.error e]) := by
  have h := sseRun_eq sessionId model toks "" err
  simpa [sseStream] using h

/-- Claim C9: the `GET /api/v1/sessions/{id}/history` handler ignores
its `limit` query parameter — any two limits give the same response —
and always returns the full history via `get_session_info`, whose
`message_count` is the length of the unbounded history. -/
theorem sessionHistoryEndpoint_ignores_limit (db : List MsgRow)
    (sessionId : String) (l₁ l₂ : ℕ) :
    getSessionHistoryEndpoint db sessionId l₁ =
      getSessionHistoryEndpoint db sessionId l₂ ∧
    (getSessionHistoryEndpoint db sessionId l₁).messageCount =
      (getHistory db sessionId none).length := by
  exact ⟨rfl, rfl⟩

/-- Claim C10: a non-empty `Authorization` header that does not start
with `Bearer ` is treated as a bare API key — the whole stripped
header value is looked up, and when it is one of the configured valid
keys the request authenticates and that key is returned (no 401/403). -/
theorem verifyApiKey_bare_key (auth cfg : List Char)
    (hne : auth ≠ [])
    (hb : bearerChars.isPrefixOf auth = false)
    (hmem : pyStrip auth ∈ validApiKeys cfg) :
    verifyApiKey auth (validApiKeys cfg) = .ok (pyStrip auth) := by
  have hkey : pyStrip auth ≠ [] := by
    simp only [validApiKeys, List.mem_filter, decide_not] at hmem
    intro h
    simp [h] at hmem
  simp [verifyApiKey, hb, hkey, hmem]

/-- Concrete instance of `verifyApiKey_bare_key`: the default
configured key `demo-key-123`, sent without a `Bearer ` prefix, is
accepted. -/
theorem verifyApiKey_bare_key_witness :
    ("demo-key-123".toList ≠ ([] : List Char)) ∧
    (bearerChars.isPrefixOf "demo-key-123".toList = false) ∧
    pyStrip "demo-key-123".toList ∈ validApiKeys "demo-key-123".toList ∧
    verifyApiKey "demo-key-123".toList (validApiKeys "demo-key-123".toList) =
      .ok (pyStrip "demo-key-123".toList) :=
  ⟨by decide, by decide, by decide,
    verifyApiKey_bare_key "demo-key-123".toList "demo-key-123".toList
      (by decide) (by decide) (by decide)⟩

/-- In a well-formed provider table (each provider's `model_name` is
its registration key), looking a name up yields a provider with that
very `model_name`, and succeeds exactly on the registered names. -/
lemma lookup_modelName (l : List (String × Provider))
    (hl : ∀ q ∈ l, (q.2).modelName = q.1) (x : String) :
    (l.lookup x).map Provider.modelName =
      if x ∈ l.map Prod.fst then some x else none := by
  induction l with
  | nil => simp
  | cons a t ih =>
    have ha := hl a (List.mem_cons_self a t)
    have ht : ∀ q ∈ t, (q.2).modelName = q.1 := fun q hq =>
      hl q (List.mem_cons_of_mem a hq)
    by_cases h : x = a.1
    · simp [List.lookup, h, ha]
    · have hb : (x == a.1) = false := by simpa using h
      have hmem : x ∈ a.1 :: List.map Prod.fst t ↔ x ∈ List.map Prod.fst t := by
        simp [List.mem_cons, h]
      simp only [List.lookup, hb, ih ht]
      exact (if_congr hmem rfl rfl).symm

/-- Every router built by `ModelRouter.__init__` has a well-formed
provider table. -/
lemma mkRouter_wf (okKey gmKey : Bool) (dm : String) :
    ∀ q ∈ (mkRouter okKey gmKey dm).providers, (q.2).modelName = q.1 := by
  intro q hq
  simp only [mkRouter, List.mem_append] at hq
  rcases hq with h | h
  · split at h
    · simp only [List.mem_map] at h
      obtain ⟨m, _, rfl⟩ := h
      rfl
    · simp at h
  · split at h
    · simp only [List.mem_map] at h
      obtain ⟨m, _, rfl⟩ := h
      rfl
    · simp at h

/-- In a well-formed router, `get_provider` succeeds with a provider
named by the resolved model exactly when that name is registered, and
otherwise reports the registered names. -/
lemma getProvider_eq (r : Router) (model : Option String)
    (hwf : ∀ q ∈ r.providers, (q.2).modelName = q.1) :
    okModelName (getProvider r model) =
      (if resolveModel r model ∈ r.names then some (resolveModel r model)
       else none) ∧
    errModels (getProvider r model) =
      (if resolveModel r model ∈ r.names then none else some r.names) := by
  have hlk := lookup_modelName r.providers hwf (resolveModel r model)
  have hnames : r.providers.map Prod.fst = r.names := rfl
  rw [hnames] at hlk
  unfold getProvider
  cases hp : r.providers.lookup (resolveModel r model) with
  | none =>
    rw [hp] at hlk
    have hmem : resolveModel r model ∉ r.names := by
      intro hm
      rw [if_pos hm] at hlk
      exact Option.noConfusion hlk
    simp [okModelName, errModels, hmem]
  | some p =>
    rw [hp] at hlk
    have hmem : resolveModel r model ∈ r.names := by
      by_contra hm
      rw [if_neg hm] at hlk
      exact Option.noConfusion hlk
    rw [if_pos hmem] at hlk
    have hpm : p.modelName = resolveModel r model := by
      simpa using hlk
    simp [okModelName, errModels, hmem, hpm]

/-- Claim C8, amended: with the resolved name being the argument — or
the configured default when the argument is `None` **or the empty
string** (Python's `or` treats `""` as falsy) — `get_provider` returns
a provider whose `model_name` equals the resolved name exactly when
that name is registered, and otherwise fails with an error enumerating
exactly the registered model names. -/
theorem getProvider_resolved (okKey gmKey : Bool) (dm : String)
    (model : Option String) :
    okModelName (getProvider (mkRouter okKey gmKey dm) model) =
      (if resolveModel (mkRouter okKey gmKey dm) model ∈
          (mkRouter okKey gmKey dm).names
       then some (resolveModel (mkRouter okKey gmKey dm) model)
       else none) ∧
    errModels (getProvider (mkRouter okKey gmKey dm) model) =
      (if resolveModel (mkRouter okKey gmKey dm) model ∈
          (mkRouter okKey gmKey dm).names
       then none
       else some (mkRouter okKey gmKey dm).names) :=
  getProvider_eq (mkRouter okKey gmKey dm) model (mkRouter_wf okKey gmKey dm)

/-- Counterexample to claim C8 as stated: with the OpenAI backend
registered and default model `gpt-4o-mini`, the argument `""` is not
`None`, so the claim resolves it to `""`, which is not registered and
should therefore produce the unknown-model error — but the code's
`model or self.default_model` swallows the empty string and happily
returns the default provider (model `gpt-4o-mini`), with no error. -/
theorem getProvider_empty_string_counterexample :
    ("" ∉ (mkRouter true false "gpt-4o-mini").names) ∧
    errModels (getProvider (mkRouter true false "gpt-4o-mini") (some "")) =
      none ∧
    okModelName (getProvider (mkRouter true false "gpt-4o-mini") (some "")) =
      some "gpt-4o-mini" := by
  refine ⟨by decide, ?_, ?_⟩ <;> rfl

/-- Claim C1 names a code bug: `get_history` with a positive limit is
meant (per the query's own outer `ORDER BY rowid ASC`) to re-sort the
selected tail ascending, but a derived table has no rowid, so SQLite
sorts by NULL and the inner `ORDER BY id DESC` order survives.  On a
session holding `a` then `b`, a limit-2 fetch returns `[b, a]` —
the reverse of the unlimited (ascending) result `[a, b]`. -/
theorem getHistory_limit_is_descending :
    getHistory
        [⟨"s", "user", "a", none⟩, ⟨"s", "user", "b", none⟩] "s" (some 2) =
      [⟨"s", "user", "b", none⟩, ⟨"s", "user", "a", none⟩] ∧
    getHistory
        [⟨"s", "user", "a", none⟩, ⟨"s", "user", "b", none⟩] "s" (some 2) ≠
      getHistory
        [⟨"s", "user", "a", none⟩, ⟨"s", "user", "b", none⟩] "s" none := by
  exact ⟨rfl, by decide⟩

/-- Claim C5 names the same code bug one layer up: because the limited
`get_history` comes back newest-first, `_build_messages` sends the
conversation to the provider in reverse — here the user turn `a`
followed by the assistant turn `b` yields
`[system, assistant b, user a]` instead of the intended
`[system, user a, assistant b]`. -/
theorem buildMessages_newest_first :
    buildMessages
        [⟨"s", "user", "a", none⟩, ⟨"s", "assistant", "b", none⟩] "s" =
      [⟨"system", SYSTEM_PROMPT⟩, ⟨"assistant", "b"⟩, ⟨"user", "a"⟩] ∧
    buildMessages
        [⟨"s", "user", "a", none⟩, ⟨"s", "assistant", "b", none⟩] "s" ≠
      [⟨"system", SYSTEM_PROMPT⟩, ⟨"user", "a"⟩, ⟨"assistant", "b"⟩] := by
  exact ⟨rfl, by decide⟩

/-- Refilling a bucket at its own `last_refill` instant only caps the
level. -/
lemma refill_self (cap w t now : ℚ) :
    refill cap w ⟨t, now⟩ now = min cap t := by
  simp [refill]

/-- A same-instant `check_rate_limit` on a bucket holding `1 ≤ t ≤ cap`
tokens is allowed and takes one token. -/
lemma checkRateLimit_step (cap w t now : ℚ) (h1 : 1 ≤ t) (h2 : t ≤ cap) :
    checkRateLimit cap w (some ⟨t, now⟩) now =
      (⟨true, pyInt (t - 1), none⟩, ⟨t - 1, now⟩) := by
  simp only [checkRateLimit, Option.getD, refill_self]
  rw [min_eq_right h2, if_neg (not_lt.2 h1)]

/-- The first `check_rate_limit` on a fresh key starts from a full
bucket and takes one token. -/
lemma checkRateLimit_fresh (cap w now : ℚ) (h : 1 ≤ cap) :
    checkRateLimit cap w none now =
      (⟨true, pyInt (cap - 1), none⟩, ⟨cap - 1, now⟩) := by
  simp only [checkRateLimit, Option.getD, refill_self]
  rw [min_self, if_neg (not_lt.2 h)]

/-- A same-instant `check_rate_limit` on an empty bucket is denied. -/
lemma checkRateLimit_empty (cap w now : ℚ) (hcap : 0 ≤ cap) :
    (checkRateLimit cap w (some ⟨0, now⟩) now).1.allowed = false := by
  simp only [checkRateLimit, Option.getD, refill_self]
  rw [min_eq_right hcap, if_pos (by norm_num)]

/-- After `k ≤ cap` immediate calls on a fresh key every call was
allowed and the bucket holds `cap - k` tokens. -/
lemma runChecks_eq (cap : ℕ) (w now : ℚ) :
    ∀ k, k ≤ cap →
      runChecks (cap : ℚ) w now k =
        ((if k = 0 then none else some ⟨(cap : ℚ) - (k : ℚ), now⟩), true) := by
  intro k
  induction k with
  | zero => intro _; simp [runChecks]
  | succ n ih =>
    intro h
    have hn := ih (Nat.le_of_succ_le h)
    have hcast : (n : ℚ) + 1 ≤ (cap : ℚ) := by exact_mod_cast h
    by_cases h0 : n = 0
    · subst h0
      simp only [runChecks, hn, if_pos rfl]
      rw [checkRateLimit_fresh _ _ _ (by linarith)]
      norm_num
    · simp only [runChecks, hn, if_neg h0]
      rw [checkRateLimit_step _ _ _ _ (by linarith) (by
        have : (0 : ℚ) ≤ (n : ℚ) := Nat.cast_nonneg n
        linarith)]
      simp only [if_neg (Nat.succ_ne_zero n)]
      norm_num
      ring

/-- Claim C6: on a fresh key the first `check_rate_limit` call is
allowed and reports `remaining = capacity - 1`; `capacity` consecutive
immediate calls are all allowed; and the following call on that key is
denied. -/
theorem checkRateLimit_fresh_exhaust (cap : ℕ) (now : ℚ) (hcap : 1 ≤ cap) :
    ((checkRateLimit (cap : ℚ) 60 none now).1.allowed = true ∧
     (checkRateLimit (cap : ℚ) 60 none now).1.remaining = (cap : ℤ) - 1) ∧
    (runChecks (cap : ℚ) 60 now cap).2 = true ∧
    (checkRateLimit (cap : ℚ) 60 (runChecks (cap : ℚ) 60 now cap).1 now).1.allowed
      = false := by
  have hcapQ : (1 : ℚ) ≤ (cap : ℚ) := by exact_mod_cast hcap
  refine ⟨⟨?_, ?_⟩, ?_, ?_⟩
  · rw [checkRateLimit_fresh _ _ _ hcapQ]
  · rw [checkRateLimit_fresh _ _ _ hcapQ]
    show pyInt ((cap : ℚ) - 1) = (cap : ℤ) - 1
    unfold pyInt
    rw [if_pos (by linarith)]
    have : ((cap : ℚ) - 1) = (((cap : ℤ) - 1 : ℤ) : ℚ) := by push_cast; ring
    rw [this, Int.floor_intCast]
  · rw [runChecks_eq cap 60 now cap le_rfl]
  · rw [runChecks_eq cap 60 now cap le_rfl]
    have hne : ¬ cap = 0 := by omega
    rw [if_neg hne, sub_self]
    exact checkRateLimit_empty _ _ _ (by linarith)

/-- Concrete instance of `checkRateLimit_fresh_exhaust` at capacity 3:
the first call is allowed with 2 remaining, three immediate calls all
pass, and the fourth is denied. -/
theorem checkRateLimit_fresh_exhaust_witness :
    1 ≤ 3 ∧
    (((checkRateLimit ((3 : ℕ) : ℚ) 60 none 0).1.allowed = true ∧
      (checkRateLimit ((3 : ℕ) : ℚ) 60 none 0).1.remaining = ((3 : ℕ) : ℤ) - 1) ∧
     (runChecks ((3 : ℕ) : ℚ) 60 0 3).2 = true ∧
     (checkRateLimit ((3 : ℕ) : ℚ) 60 (runChecks ((3 : ℕ) : ℚ) 60 0 3).1 0).1.allowed
       = false) :=
  ⟨by decide, checkRateLimit_fresh_exhaust 3 0 (by decide)⟩

/-- Bounds invariant carried along a trace: every existing bucket sits
in `[0, capacity]` and was last refilled no later than `t`. -/
def limiterInv (maxRequests maxTokens t : ℚ) (s : LimiterState) : Prop :=
  (∀ k b, s.reqBuckets k = some b →
    0 ≤ b.tokens ∧ b.tokens ≤ maxRequests ∧ b.lastRefill ≤ t) ∧
  (∀ k b, s.tokBuckets k = some b →
    0 ≤ b.tokens ∧ b.tokens ≤ maxTokens ∧ b.lastRefill ≤ t)

/-- Refill keeps a nonnegative, not-late bucket inside `[0, capacity]`. -/
lemma refill_bounds (cap w : ℚ) (hw : 0 < w) (hcap : 0 ≤ cap)
    (b : RateBucket) (now : ℚ) (hb : 0 ≤ b.tokens) (hlr : b.lastRefill ≤ now) :
    0 ≤ refill cap w b now ∧ refill cap w b now ≤ cap := by
  unfold refill
  refine ⟨le_min hcap ?_, min_le_left _ _⟩
  have hnn : 0 ≤ ((now - b.lastRefill) / w) * cap :=
    mul_nonneg (div_nonneg (sub_nonneg.2 hlr) hw.le) hcap
  linarith

/-- One `check_rate_limit` call keeps its bucket inside `[0, capacity]`
and stamps it with the call time. -/
lemma checkRateLimit_bounds (cap w : ℚ) (hw : 0 < w) (hcap : 0 ≤ cap)
    (b₀ : Option RateBucket) (now : ℚ)
    (hb : ∀ b, b₀ = some b →
      0 ≤ b.tokens ∧ b.tokens ≤ cap ∧ b.lastRefill ≤ now) :
    (0 ≤ (checkRateLimit cap w b₀ now).2.tokens ∧
     (checkRateLimit cap w b₀ now).2.tokens ≤ cap) ∧
    (checkRateLimit cap w b₀ now).2.lastRefill = now := by
  have hb' : 0 ≤ (b₀.getD ⟨cap, now⟩).tokens ∧
      (b₀.getD ⟨cap, now⟩).lastRefill ≤ now := by
    cases b₀ with
    | none => exact ⟨hcap, le_refl now⟩
    | some b => exact ⟨(hb b rfl).1, (hb b rfl).2.2⟩
  have hr := refill_bounds cap w hw hcap (b₀.getD ⟨cap, now⟩) now hb'.1 hb'.2
  simp only [checkRateLimit]
  split
  · exact ⟨⟨hr.1, hr.2⟩, rfl⟩
  · rename_i hlt
    have h1 : 1 ≤ refill cap w (b₀.getD ⟨cap, now⟩) now := not_lt.1 hlt
    refine ⟨⟨?_, ?_⟩, rfl⟩
    · show 0 ≤ refill cap w (b₀.getD ⟨cap, now⟩) now - 1
      linarith
    · show refill cap w (b₀.getD ⟨cap, now⟩) now - 1 ≤ cap
      linarith [hr.2]

/-- One `consume_tokens` call keeps its bucket inside `[0, capacity]`
and stamps it with the call time. -/
lemma consumeTokens_bounds (cap w : ℚ) (hw : 0 < w) (hcap : 0 ≤ cap)
    (b₀ : Option RateBucket) (now : ℚ) (n : ℕ)
    (hb : ∀ b, b₀ = some b →
      0 ≤ b.tokens ∧ b.tokens ≤ cap ∧ b.lastRefill ≤ now) :
    (0 ≤ (consumeTokens cap w b₀ now n).2.tokens ∧
     (consumeTokens cap w b₀ now n).2.tokens ≤ cap) ∧
    (consumeTokens cap w b₀ now n).2.lastRefill = now := by
  have hb' : 0 ≤ (b₀.getD ⟨cap, now⟩).tokens ∧
      (b₀.getD ⟨cap, now⟩).lastRefill ≤ now := by
    cases b₀ with
    | none => exact ⟨hcap, le_refl now⟩
    | some b => exact ⟨(hb b rfl).1, (hb b rfl).2.2⟩
  have hr := refill_bounds cap w hw hcap (b₀.getD ⟨cap, now⟩) now hb'.1 hb'.2
  simp only [consumeTokens]
  split
  · exact ⟨⟨hr.1, hr.2⟩, rfl⟩
  · rename_i hlt
    have h1 : (n : ℚ) ≤ refill cap w (b₀.getD ⟨cap, now⟩) now := not_lt.1 hlt
    have hn : (0 : ℚ) ≤ (n : ℚ) := Nat.cast_nonneg n
    refine ⟨⟨?_, ?_⟩, rfl⟩
    · show 0 ≤ refill cap w (b₀.getD ⟨cap, now⟩) now - (n : ℚ)
      linarith
    · show refill cap w (b₀.getD ⟨cap, now⟩) now - (n : ℚ) ≤ cap
      linarith [hr.2]

/-- One limiter step preserves the invariant at the call time. -/
lemma limiterStep_inv (maxRequests maxTokens w : ℚ) (hw : 0 < w)
    (hr : 0 ≤ maxRequests) (ht : 0 ≤ maxTokens)
    (s : LimiterState) (t now : ℚ) (hle : t ≤ now) (op : LimiterOp)
    (hinv : limiterInv maxRequests maxTokens t s) :
    limiterInv maxRequests maxTokens now
      (limiterStep maxRequests maxTokens w s now op) := by
  obtain ⟨hreq, htok⟩ := hinv
  cases op with
  | check key =>
    refine ⟨?_, fun k b hkb => ?_⟩
    · intro k b hkb
      simp only [limiterStep] at hkb
      by_cases hk : k = key
      · rw [if_pos hk] at hkb
        have hc := checkRateLimit_bounds maxRequests w hw hr
          (s.reqBuckets key) now (fun b' hb' => by
            have := hreq key b' hb'
            exact ⟨this.1, this.2.1, le_trans this.2.2 hle⟩)
        cases hkb
        exact ⟨hc.1.1, hc.1.2, le_of_eq hc.2⟩
      · rw [if_neg hk] at hkb
        have := hreq k b hkb
        exact ⟨this.1, this.2.1, le_trans this.2.2 hle⟩
    · simp only [limiterStep] at hkb
      have := htok k b hkb
      exact ⟨this.1, this.2.1, le_trans this.2.2 hle⟩
  | consume key n =>
    refine ⟨fun k b hkb => ?_, ?_⟩
    · simp only [limiterStep] at hkb
      have := hreq k b hkb
      exact ⟨this.1, this.2.1, le_trans this.2.2 hle⟩
    · intro k b hkb
      simp only [limiterStep] at hkb
      by_cases hk : k = key
      · rw [if_pos hk] at hkb
        have hc := consumeTokens_bounds maxTokens w hw ht
          (s.tokBuckets key) now n (fun b' hb' => by
            have := htok key b' hb'
            exact ⟨this.1, this.2.1, le_trans this.2.2 hle⟩)
        cases hkb
        exact ⟨hc.1.1, hc.1.2, le_of_eq hc.2⟩
      · rw [if_neg hk] at hkb
        have := htok k b hkb
        exact ⟨this.1, this.2.1, le_trans this.2.2 hle⟩

/-- Running a time-ordered trace preserves the invariant up to the last
call time. -/
lemma limiterRun_inv (maxRequests maxTokens w : ℚ) (hw : 0 < w)
    (hr : 0 ≤ maxRequests) (ht : 0 ≤ maxTokens) :
    ∀ (ops : List (ℚ × LimiterOp)) (s : LimiterState) (t : ℚ),
      limiterInv maxRequests maxTokens t s →
      List.Chain (fun a b => a ≤ b) t (ops.map Prod.fst) →
      limiterInv maxRequests maxTokens ((ops.map Prod.fst).getLastD t)
        (limiterRun maxRequests maxTokens w s ops) := by
  intro ops
  induction ops with
  | nil => intro s t hinv _; exact hinv
  | cons p rest ih =>
    intro s t hinv hchain
    obtain ⟨now, op⟩ := p
    simp only [List.map_cons, List.chain_cons] at hchain
    have hstep := limiterStep_inv maxRequests maxTokens w hw hr ht s t now
      hchain.1 op hinv
    have := ih (limiterStep maxRequests maxTokens w s now op) now hstep
      hchain.2
    rw [List.map_cons, List.getLastD_cons]
    exact this

/-- Claim C7: along any sequence of `check_rate_limit` and
`consume_tokens` calls taken at nondecreasing times, every key's
request-bucket and token-bucket levels stay between 0 and their
configured capacities.  Every prefix of such a trace is itself such a
trace, so this covers the state before and after each call. -/
theorem limiter_buckets_bounded (maxRequests maxTokens : ℕ)
    (ops : List (ℚ × LimiterOp)) (key : String)
    (hchain : List.Chain' (fun a b => a ≤ b) (ops.map Prod.fst)) :
    bucketOk (maxRequests : ℚ)
      ((limiterRun (maxRequests : ℚ) (maxTokens : ℚ) 60 initLimiter ops).reqBuckets
        key) ∧
    bucketOk (maxTokens : ℚ)
      ((limiterRun (maxRequests : ℚ) (maxTokens : ℚ) 60 initLimiter ops).tokBuckets
        key) := by
  have hinit : limiterInv (maxRequests : ℚ) (maxTokens : ℚ)
      ((ops.map Prod.fst).headD 0) initLimiter := by
    constructor <;> intro k b hb <;> exact Option.noConfusion hb
  have hchain' : List.Chain (fun a b => a ≤ b)
      ((ops.map Prod.fst).headD 0) (ops.map Prod.fst) := by
    cases hm : ops.map Prod.fst with
    | nil => exact List.Chain.nil
    | cons a l =>
      rw [hm] at hchain
      exact List.chain_cons.2 ⟨le_refl a, hchain⟩
  have hres := limiterRun_inv (maxRequests : ℚ) (maxTokens : ℚ) 60
    (by norm_num) (Nat.cast_nonneg maxRequests) (Nat.cast_nonneg maxTokens)
    ops initLimiter ((ops.map Prod.fst).headD 0) hinit hchain'
  constructor
  · cases hb : (limiterRun (maxRequests : ℚ) (maxTokens : ℚ) 60 initLimiter
        ops).reqBuckets key with
    | none => trivial
    | some b =>
      have := hres.1 key b hb
      exact ⟨this.1, this.2.1⟩
  · cases hb : (limiterRun (maxRequests : ℚ) (maxTokens : ℚ) 60 initLimiter
        ops).tokBuckets key with
    | none => trivial
    | some b =>
      have := hres.2 key b hb
      exact ⟨this.1, this.2.1⟩

/-- Concrete instance of `limiter_buckets_bounded`: a three-call trace
on two keys at times 0, 1, 2 leaves key `a`'s buckets within bounds. -/
theorem limiter_buckets_bounded_witness :
    List.Chain' (fun a b => a ≤ b)
      (([((0 : ℚ), LimiterOp.check "a"), (1, LimiterOp.consume "a" 3),
         (2, LimiterOp.check "b")]).map Prod.fst) ∧
    (bucketOk ((2 : ℕ) : ℚ)
      ((limiterRun ((2 : ℕ) : ℚ) ((5 : ℕ) : ℚ) 60 initLimiter
        [((0 : ℚ), LimiterOp.check "a"), (1, LimiterOp.consume "a" 3),
         (2, LimiterOp.check "b")]).reqBuckets "a") ∧
     bucketOk ((5 : ℕ) : ℚ)
      ((limiterRun ((2 : ℕ) : ℚ) ((5 : ℕ) : ℚ) 60 initLimiter
        [((0 : ℚ), LimiterOp.check "a"), (1, LimiterOp.consume "a" 3),
         (2, LimiterOp.check "b")]).tokBuckets "a")) :=
  ⟨by norm_num [List.chain'_cons], limiter_buckets_bounded 2 5
    [((0 : ℚ), LimiterOp.check "a"), (1, LimiterOp.consume "a" 3),
     (2, LimiterOp.check "b")] "a" (by norm_num [List.chain'_cons])⟩

end StreamChat
